import Mathlib

/-!
# Xedge4Zephyr: startup code of `XedgeInit/src/main.c`

A shallow embedding of the C functions of `main.c`.  Every call that leaves the
translation unit (Zephyr kernel, logging, SNTP, the Barracuda App Server and the
Lua C API) is recorded as an `Event` in the trace of the running function; the
values such a call hands back are read from an explicit `World`.
-/

namespace Xedge

/-! ## Data model -/

/-- One C `char` of a trace buffer. -/
abbrev CChar := Fin 256

/-- Zephyr log levels used by the module (`LOG_ERR`, `LOG_INF`). -/
inductive Severity
  | err
  | inf
  deriving DecidableEq, Repr

/-- An argument handed to a printf-like call after the format string, by its C
type: signed integer, unsigned integer, string constant, or the string read
from a buffer.  Rendering the line is the logging backend's work and is not
part of the embedding. -/
inductive Arg
  | int (n : Int)
  | uint (n : Nat)
  | str (s : String)
  | cstr (bytes : List CChar)
  deriving DecidableEq, Repr

/-- The functions of `main.c` whose address is passed to a collaborator. -/
inductive FnPtr
  | dlmalloc_exhausted_handler
  | xedge_trace_callback
  | xedge_error_handler
  | xedge_server_thread
  | sntp_event
  deriving DecidableEq, Repr

/-- Result record of `sntp_simple` (`struct sntp_time`); the field `seconds`
is a `uint64_t`. -/
structure sntp_time where
  seconds : Nat
  deriving DecidableEq, Repr

/-- POSIX `struct timespec`; `tv_sec` is a `time_t`, a signed 64-bit integer. -/
structure timespec where
  tv_sec : Int
  tv_nsec : Int
  deriving DecidableEq, Repr

/-- POSIX clock identifiers used by the module. -/
inductive ClockId
  | CLOCK_REALTIME
  deriving DecidableEq, Repr

/-- Values of the Lua stack, by Lua type.  Tables and userdata are identified
by a reference number. -/
inductive LuaValue
  | nil
  | boolean (b : Bool)
  | number (n : Int)
  | string (s : String)
  | table (ref : Nat)
  | function (ref : Nat)
  | userdata (ref : Nat)
  deriving DecidableEq, Repr

/-- An observable effect: a call that leaves `main.c`, or an access to the
caller-supplied trace buffer. -/
inductive Event
  | LOG (sev : Severity) (fmt : String) (args : List Arg)
  | printk (fmt : String) (args : List Arg)
  | k_panic
  | load (i : Int)
  | store (i : Int) (v : CChar)
  | barracuda
  | init_dlmalloc (size : Nat)
  | dlmalloc_setExhaustedCB (cb : FnPtr)
  | HttpServer_setErrHnd (cb : FnPtr)
  | HttpTrace_setFLushCallback (cb : FnPtr)
  | k_thread_create (entry : FnPtr) (stackSize : Nat) (prio : Int) (options : Nat)
  | sntp_simple (server : String) (timeout : Int)
  | clock_settime (clock : ClockId) (ts : timespec)
  | ThreadJob_lcreate (size : Nat) (cb : FnPtr) (job : Nat)
  | HttpServer_getMutex (m : Nat)
  | ThreadMutex_set (m : Nat)
  | LThreadMgr_run (job : Nat)
  | ThreadMutex_release (m : Nat)
  | k_sleep (seconds : Int)
  | k_uptime_get
  | lua_pushglobaltable
  | lua_getfield (idx : Int) (k : String)
  | lua_isfunction (idx : Int)
  | lua_pushstring (s : String)
  | lua_pcall (f : LuaValue) (args : List LuaValue) (nresults : Int) (msgh : Int)
  | msgh_called (msgh : Int) (err : LuaValue)
  deriving DecidableEq, Repr

/-- How a call ends. -/
inductive Outcome (α : Type)
  | ret (a : α)
  | halt
  | block
  | fault
  deriving DecidableEq, Repr

/-- An effectful computation, run: the events it performed, in order, and how
it ended.  `halt`: the system was halted (`k_panic`); `block`: a callee never
returned; `fault`: an access outside the buffer (undefined behaviour in C). -/
structure Eff (α : Type) where
  trace : List Event
  out : Outcome α
  deriving DecidableEq, Repr

/-- Sequencing: the second computation runs only when the first returned. -/
def Eff.bind {α β : Type} (m : Eff α) (f : α → Eff β) : Eff β :=
  match m.out with
  | .ret a => ⟨m.trace ++ (f a).trace, (f a).out⟩
  | .halt => ⟨m.trace, .halt⟩
  | .block => ⟨m.trace, .block⟩
  | .fault => ⟨m.trace, .fault⟩

instance : Monad Eff where
  pure a := ⟨[], .ret a⟩
  bind := Eff.bind

/-- Perform one external call that returns. -/
def emit (e : Event) : Eff Unit := ⟨[e], .ret ()⟩

/-! ## Collaborators -/

def LOG_ERR (fmt : String) (args : List Arg) : Eff Unit := emit (.LOG .err fmt args)

def LOG_INF (fmt : String) (args : List Arg) : Eff Unit := emit (.LOG .inf fmt args)

def printk (fmt : String) (args : List Arg) : Eff Unit := emit (.printk fmt args)

/-- Zephyr `k_panic()`: the kernel's fatal-error path; control does not come
back. -/
def k_panic : Eff Unit := ⟨[.k_panic], .halt⟩

/-- The expression `buf[i]` read. -/
def load (buf : List CChar) (i : Int) : Eff CChar :=
  if 0 ≤ i ∧ i < buf.length then ⟨[.load i], .ret (buf.getD i.toNat 0)⟩ else ⟨[], .fault⟩

/-- The assignment `buf[i] = v`. -/
def store (buf : List CChar) (i : Int) (v : CChar) : Eff (List CChar) :=
  if 0 ≤ i ∧ i < buf.length then ⟨[.store i v], .ret (buf.set i.toNat v)⟩ else ⟨[], .fault⟩

/-- The null-terminated string a `%s` argument denotes: the bytes before the
first 0 of the buffer. -/
def readCStr (buf : List CChar) : Eff (List CChar) :=
  if (0 : CChar) ∈ buf then ⟨[], .ret (buf.takeWhile (fun c => c ≠ 0))⟩ else ⟨[], .fault⟩

/-! ## `xedge_trace_callback` -/

/-- Embedding of `xedge_trace_callback(char* buf, int bufLen)`; returns the
buffer as the call leaves it. -/
def xedge_trace_callback (buf : List CChar) (bufLen : Int) : Eff (List CChar) :=
  if bufLen > 0 then do
    let c ← load buf (bufLen - 1)
    let buf ← if c = 10 then store buf (bufLen - 1) 0 else store buf bufLen 0
    let s ← readCStr buf
    LOG_INF "%s" [.cstr s]
    pure buf
  else
    pure buf

/-! ## `xedge_error_handler` -/

/-- Embedding of `xedge_error_handler(ecode1, ecode2, file, line)`. -/
def xedge_error_handler (ecode1 : Int) (ecode2 : Nat) (file : String) (line : Int) : Eff Unit := do
  LOG_ERR "Barracuda Fatal Error: %d %d at %s:%d" [.int ecode1, .uint ecode2, .str file, .int line]
  printk "FATAL: Barracuda error %d %d at %s:%d\n" [.int ecode1, .uint ecode2, .str file, .int line]
  k_panic

/-! ## `xedge_server_thread` -/

/-- The engine's run entry point `barracuda()`, declared `extern` in `main.c`.
Whether the call ever comes back is decided outside this file and is the
parameter `returns`. -/
def barracuda (returns : Bool) : Eff Unit :=
  if returns then ⟨[.barracuda], .ret ()⟩ else ⟨[.barracuda], .block⟩

/-- Embedding of `xedge_server_thread(arg1, arg2, arg3)`; the three arguments
are unused. -/
def xedge_server_thread (barracudaReturns : Bool) : Eff Unit := do
  LOG_INF "Starting the Xedge main loop" []
  barracuda barracudaReturns
  LOG_ERR "barracuda() returned unexpectedly!" []

/-! ## The Lua C API used by `sntp_event` -/

/-- The scripting environment a job runs in, as far as the Lua C API calls of
`sntp_event` observe it. -/
structure LuaEnv where
  /-- Reference of the global table `_G`. -/
  globalTable : Nat
  /-- The value `t[k]` that `lua_getfield` yields. -/
  index : LuaValue → String → LuaValue
  /-- The value has a `__call` metamethod. -/
  callMeta : LuaValue → Bool
  /-- Outcome of calling a value with arguments: an error value, or results. -/
  call : LuaValue → List LuaValue → Except LuaValue (List LuaValue)
  /-- What the message handler at a stack index makes of an error value. -/
  handler : LuaValue → LuaValue → LuaValue

/-- A Lua stack, bottom first: index 1 is the head, index -1 the last element. -/
abbrev LuaStack := List LuaValue

/-- The value at an acceptable stack index. -/
def LuaStack.at (L : LuaStack) (idx : Int) : Option LuaValue :=
  if 0 < idx then L.get? (idx - 1).toNat
  else if idx < 0 ∧ -idx ≤ L.length then L.get? (L.length - (-idx).toNat)
  else none

/-- Lua type test `lua_type(L, idx) == LUA_TFUNCTION`. -/
def LuaValue.isFunction : LuaValue → Bool
  | .function _ => true
  | _ => false

/-- A value Lua can call: a function, or a value with a `__call` metamethod. -/
def LuaEnv.callable (env : LuaEnv) (v : LuaValue) : Bool :=
  v.isFunction || env.callMeta v

/-- Lua C API `lua_pushglobaltable(L)`: pushes the global table. -/
def lua_pushglobaltable (env : LuaEnv) (L : LuaStack) : Eff LuaStack :=
  ⟨[.lua_pushglobaltable], .ret (L ++ [.table env.globalTable])⟩

/-- Lua C API `lua_getfield(L, idx, k)`: pushes `t[k]` for the value `t` at
the index. -/
def lua_getfield (env : LuaEnv) (L : LuaStack) (idx : Int) (k : String) : Eff LuaStack :=
  match L.at idx with
  | some t => ⟨[.lua_getfield idx k], .ret (L ++ [env.index t k])⟩
  | none => ⟨[], .fault⟩

/-- Lua C API `lua_isfunction(L, idx)`: whether the value at the index is a
function; false at an index that holds no value. -/
def lua_isfunction (L : LuaStack) (idx : Int) : Eff Bool :=
  match L.at idx with
  | some v => ⟨[.lua_isfunction idx], .ret v.isFunction⟩
  | none => ⟨[.lua_isfunction idx], .ret false⟩

/-- Lua C API `lua_pushstring(L, s)`: pushes a copy of the string. -/
def lua_pushstring (L : LuaStack) (s : String) : Eff LuaStack :=
  ⟨[.lua_pushstring s], .ret (L ++ [.string s])⟩

/-- Results of a call adjusted to `nresults` (`LUA_MULTRET` is -1). -/
def adjustResults (rs : List LuaValue) (nresults : Int) : List LuaValue :=
  if nresults < 0 then rs
  else rs.take nresults.toNat ++ List.replicate (nresults.toNat - rs.length) .nil

/-- Protected call `lua_pcall(L, nargs, nresults, msgh)`: the function is below
its `nargs` arguments on top of the stack; all are popped.  On success the
adjusted results are pushed and 0 (`LUA_OK`) is returned.  On error the error
is caught: it is handed to the message handler at index `msgh` when `msgh` is
not 0, the resulting error value is pushed, and `LUA_ERRRUN` is returned. -/
def lua_pcall (env : LuaEnv) (L : LuaStack) (nargs : Nat) (nresults : Int) (msgh : Int) :
    Eff (LuaStack × Int) :=
  if nargs + 1 ≤ L.length then
    let base := L.take (L.length - (nargs + 1))
    let f := (L.drop (L.length - (nargs + 1))).headD .nil
    let args := L.drop (L.length - nargs)
    match env.call f args with
    | .ok rs => ⟨[.lua_pcall f args nresults msgh], .ret (base ++ adjustResults rs nresults, 0)⟩
    | .error e =>
      if msgh = 0 then ⟨[.lua_pcall f args nresults msgh], .ret (base ++ [e], 2)⟩
      else
        match L.at msgh with
        | some h => ⟨[.lua_pcall f args nresults msgh, .msgh_called msgh e],
                      .ret (base ++ [env.handler h e], 2)⟩
        | none => ⟨[.lua_pcall f args nresults msgh], .fault⟩
  else ⟨[], .fault⟩

/-! ## `sntp_event` -/

/-- Embedding of `sntp_event(job, msgh, mgr)`; `L` is the stack of the job's
Lua state `job->Lt`, and the stack the call leaves is returned. -/
def sntp_event (env : LuaEnv) (L : LuaStack) (msgh : Int) : Eff LuaStack := do
  let L ← lua_pushglobaltable env L
  let L ← lua_getfield env L (-1) "_XedgeEvent"
  if ← lua_isfunction L (-1) then
    let L ← lua_pushstring L "sntp"
    let (L, _) ← lua_pcall env L 1 0 msgh
    pure L
  else
    pure L

/-! ## `main` -/

/-- What `main` reads from outside `main.c`: build configuration, and the
values its collaborators return. -/
structure World where
  CONFIG_BOARD : String
  BA_STACKSZ : Int
  /-- Value of `K_THREAD_STACK_SIZEOF(xedge_stack)`. -/
  K_THREAD_STACK_SIZEOF : Nat
  USE_DLMALLOC : Bool
  /-- Size of `heap_pool`, which is `sizeof(heap_pool)`, a `size_t`. -/
  CONFIG_XEDGE_HEAP_SIZE : Nat
  CONFIG_XEDGE_THREAD_PRIORITY : Int
  sizeof_ThreadJob : Nat
  /-- Return code and result record of the i-th call of `sntp_simple`. -/
  sntp : Nat → Int × sntp_time
  /-- Pointer returned by `ThreadJob_lcreate`. -/
  job : Nat
  /-- Pointer returned by `HttpServer_getMutex(ltMgr.server)`. -/
  mutex : Nat
  /-- Value of the i-th call of `k_uptime_get`, in milliseconds. -/
  uptime : Nat → Int

def sntp_simple (w : World) (i : Nat) (server : String) (timeout : Int) : Eff (Int × sntp_time) :=
  ⟨[.sntp_simple server timeout], .ret (w.sntp i)⟩

def clock_settime (clock : ClockId) (ts : timespec) : Eff Unit := emit (.clock_settime clock ts)

def ThreadJob_lcreate (w : World) (size : Nat) (cb : FnPtr) : Eff Nat :=
  ⟨[.ThreadJob_lcreate size cb w.job], .ret w.job⟩

def HttpServer_getMutex (w : World) : Eff Nat := ⟨[.HttpServer_getMutex w.mutex], .ret w.mutex⟩

def ThreadMutex_set (m : Nat) : Eff Unit := emit (.ThreadMutex_set m)

def LThreadMgr_run (job : Nat) : Eff Unit := emit (.LThreadMgr_run job)

def ThreadMutex_release (m : Nat) : Eff Unit := emit (.ThreadMutex_release m)

def k_sleep (seconds : Int) : Eff Unit := emit (.k_sleep seconds)

def k_uptime_get (w : World) (i : Nat) : Eff Int := ⟨[.k_uptime_get], .ret (w.uptime i)⟩

/-- The statements of `main` before its first loop. -/
def main_startup (w : World) : Eff Unit := do
  LOG_INF "Xedge application starting..." []
  LOG_INF "Board: %s" [.str w.CONFIG_BOARD]
  LOG_INF "Xedge stack size: %d bytes" [.int w.BA_STACKSZ]
  if w.USE_DLMALLOC then
    emit (.init_dlmalloc w.CONFIG_XEDGE_HEAP_SIZE)
    emit (.dlmalloc_setExhaustedCB .dlmalloc_exhausted_handler)
    LOG_INF "Xedge - dlmalloc initialized - heap size: %d bytes" [.uint w.CONFIG_XEDGE_HEAP_SIZE]
  emit (.HttpServer_setErrHnd .xedge_error_handler)
  emit (.HttpTrace_setFLushCallback .xedge_trace_callback)
  emit (.k_thread_create .xedge_server_thread w.K_THREAD_STACK_SIZEOF
    w.CONFIG_XEDGE_THREAD_PRIORITY 0)

/-- The C conversion of a `uint64_t` value to the signed 64-bit `time_t`, as in
the initialiser `.tv_sec = sntp_time.seconds`: values below 2^63 are kept,
values from 2^63 wrap to the negative numbers. -/
def time_t_of_uint64 (n : Nat) : Int :=
  if n % 2 ^ 64 < 2 ^ 63 then ((n % 2 ^ 64 : Nat) : Int)
  else ((n % 2 ^ 64 : Nat) : Int) - 2 ^ 64

/-- One pass through the body of the first `for(;;)` of `main`, as its `i`-th
time query; the result `true` is the `break`. -/
def retry_body (w : World) (i : Nat) : Eff Bool := do
  let (ret, sntp_time) ← sntp_simple w i "pool.ntp.org" 5000
  if ret = 0 then
    let ts : timespec := { tv_sec := time_t_of_uint64 sntp_time.seconds, tv_nsec := 0 }
    clock_settime .CLOCK_REALTIME ts
    let job ← ThreadJob_lcreate w w.sizeof_ThreadJob .sntp_event
    let soDispMutex ← HttpServer_getMutex w
    ThreadMutex_set soDispMutex
    LThreadMgr_run job
    ThreadMutex_release soDispMutex
    pure true
  else
    LOG_ERR "NTP sync failed: %d. Did you configure your network?" [.int ret]
    pure false

/-- One pass through the body of the second `for(;;)` of `main`. -/
def idle_body (w : World) (i : Nat) : Eff Unit := do
  k_sleep 30
  let up ← k_uptime_get w i
  LOG_INF "Uptime: %lld seconds" [.int (Int.tdiv up 1000)]

/-- Where `main` stands between two loop passes. -/
inductive Pc
  | retry
  | idle
  | stopped
  deriving DecidableEq, Repr

/-- The run of `main` so far. -/
structure MainState where
  pc : Pc
  /-- Time queries issued so far. -/
  queries : Nat
  /-- Passes through the idle loop so far. -/
  ticks : Nat
  trace : List Event
  deriving DecidableEq, Repr

/-- The state of `main` on reaching its first loop. -/
def main_enter (w : World) : MainState :=
  match (main_startup w).out with
  | .ret _ => ⟨.retry, 0, 0, (main_startup w).trace⟩
  | _ => ⟨.stopped, 0, 0, (main_startup w).trace⟩

/-- One loop pass of `main`. -/
def main_step (w : World) (s : MainState) : MainState :=
  match s.pc with
  | .retry =>
    let r := retry_body w s.queries
    match r.out with
    | .ret true => ⟨.idle, s.queries + 1, s.ticks, s.trace ++ r.trace⟩
    | .ret false => ⟨.retry, s.queries + 1, s.ticks, s.trace ++ r.trace⟩
    | _ => ⟨.stopped, s.queries + 1, s.ticks, s.trace ++ r.trace⟩
  | .idle =>
    let r := idle_body w s.ticks
    match r.out with
    | .ret _ => ⟨.idle, s.queries, s.ticks + 1, s.trace ++ r.trace⟩
    | _ => ⟨.stopped, s.queries, s.ticks + 1, s.trace ++ r.trace⟩
  | .stopped => s

/-- Embedding of `main()`, which never returns: the run after `n` loop passes. -/
def main (w : World) : Nat → MainState
  | 0 => main_enter w
  | n + 1 => main_step w (main w n)

/-! ## Reading traces -/

/-- The event is a log line of the structured log (`LOG_ERR`, `LOG_INF`). -/
def Event.isLog : Event → Bool
  | .LOG _ _ _ => true
  | _ => false

/-- The event is an error-severity log line. -/
def Event.isErrLog : Event → Bool
  | .LOG .err _ _ => true
  | _ => false

/-- The event writes a byte of the trace buffer. -/
def Event.isStore : Event → Bool
  | .store _ _ => true
  | _ => false

/-- The event is a protected call into the scripting environment. -/
def Event.isPcall : Event → Bool
  | .lua_pcall _ _ _ _ => true
  | _ => false

/-- The event is a time query. -/
def Event.isQuery : Event → Bool
  | .sntp_simple _ _ => true
  | _ => false

/-- The event writes the real-time clock. -/
def Event.isClockSet : Event → Bool
  | .clock_settime _ _ => true
  | _ => false

/-- The event creates a job. -/
def Event.isJobCreate : Event → Bool
  | .ThreadJob_lcreate _ _ _ => true
  | _ => false

/-- The event retrieves the engine's lock. -/
def Event.isGetMutex : Event → Bool
  | .HttpServer_getMutex _ => true
  | _ => false

/-- The event acquires a lock. -/
def Event.isAcquire : Event → Bool
  | .ThreadMutex_set _ => true
  | _ => false

/-- The event releases a lock. -/
def Event.isRelease : Event → Bool
  | .ThreadMutex_release _ => true
  | _ => false

/-- The event enqueues a job into the engine's job queue. -/
def Event.isEnqueue : Event → Bool
  | .LThreadMgr_run _ => true
  | _ => false

/-- The event is a delay. -/
def Event.isSleep : Event → Bool
  | .k_sleep _ => true
  | _ => false

/-- The event is a blocking operation: a time query or a delay. -/
def Event.isBlocking (e : Event) : Bool := e.isQuery || e.isSleep

/-- The event is one of the six effects of the success branch of `main`. -/
def Event.isSuccessEffect (e : Event) : Bool :=
  e.isClockSet || e.isJobCreate || e.isGetMutex || e.isAcquire || e.isEnqueue || e.isRelease

/-- Whether the running function holds a lock after an event, given whether
it held one before. -/
def Event.lockAfter (held : Bool) : Event → Bool
  | .ThreadMutex_set _ => true
  | .ThreadMutex_release _ => false
  | _ => held

/-- Whether the running function holds a lock after a trace that starts
without one. -/
def lockHeld (t : List Event) : Bool := t.foldl Event.lockAfter false

/-- Check of a trace from a state (lock held, clock written): every enqueue
happens with the lock held and the clock written, and no blocking operation
happens with the lock held. -/
def ordered : Bool → Bool → List Event → Bool
  | _, _, [] => true
  | held, clk, e :: es =>
    (!e.isEnqueue || (held && clk)) && (!e.isBlocking || !held) &&
      ordered (e.lockAfter held) (clk || e.isClockSet) es

/-- Check of a trace: every acquire of a lock is followed by a release of
that lock. -/
def released : List Event → Bool
  | [] => true
  | .ThreadMutex_set m :: es => decide (Event.ThreadMutex_release m ∈ es) && released es
  | _ :: es => released es

/-- The events of the first `n` passes through the retry loop of `main`. -/
def retryTrace (w : World) : Nat → List Event
  | 0 => []
  | n + 1 => retryTrace w n ++ (retry_body w n).trace

/-- The events of the first `m` passes through the idle loop of `main`. -/
def idleTrace (w : World) : Nat → List Event
  | 0 => []
  | m + 1 => idleTrace w m ++ (idle_body w m).trace

/-- A scripting environment in which every lookup yields nil. -/
def emptyEnv : LuaEnv where
  globalTable := 0
  index := fun _ _ => .nil
  callMeta := fun _ => false
  call := fun _ _ => .ok []
  handler := fun _ e => e

/-- A world in which the first three time queries fail with -1 and every
later one succeeds with 1700000000 seconds. -/
def threeFailuresWorld : World where
  CONFIG_BOARD := "native_sim"
  BA_STACKSZ := 4096
  K_THREAD_STACK_SIZEOF := 4096
  USE_DLMALLOC := true
  CONFIG_XEDGE_HEAP_SIZE := 1048576
  CONFIG_XEDGE_THREAD_PRIORITY := 5
  sizeof_ThreadJob := 64
  sntp := fun i => if i < 3 then (-1, ⟨0⟩) else (0, ⟨1700000000⟩)
  job := 7
  mutex := 9
  uptime := fun i => 30000 * ((i : Int) + 1)

/-- A world in which the first time query succeeds with 2^63 seconds. -/
def wrapWorld : World where
  CONFIG_BOARD := "native_sim"
  BA_STACKSZ := 4096
  K_THREAD_STACK_SIZEOF := 4096
  USE_DLMALLOC := false
  CONFIG_XEDGE_HEAP_SIZE := 0
  CONFIG_XEDGE_THREAD_PRIORITY := 5
  sizeof_ThreadJob := 64
  sntp := fun _ => (0, ⟨9223372036854775808⟩)
  job := 7
  mutex := 9
  uptime := fun _ => 0

/-- A world in which every time query fails with -101. -/
def offlineWorld : World where
  CONFIG_BOARD := "native_sim"
  BA_STACKSZ := 4096
  K_THREAD_STACK_SIZEOF := 4096
  USE_DLMALLOC := false
  CONFIG_XEDGE_HEAP_SIZE := 0
  CONFIG_XEDGE_THREAD_PRIORITY := 5
  sizeof_ThreadJob := 64
  sntp := fun _ => (-101, ⟨0⟩)
  job := 7
  mutex := 9
  uptime := fun _ => 0

/-- A scripting environment in which every lookup yields table 1, a table
with a `__call` metamethod, and calls return no result. -/
def callableTableEnv : LuaEnv where
  globalTable := 0
  index := fun _ _ => .table 1
  callMeta := fun v => decide (v = .table 1)
  call := fun _ _ => .ok []
  handler := fun _ e => e

/-- A scripting environment in which `_XedgeEvent` is function 5, whose call
fails with the error value "boom"; the message handler adds nothing. -/
def failingEnv : LuaEnv where
  globalTable := 0
  index := fun _ _ => .function 5
  callMeta := fun _ => false
  call := fun _ _ => .error (.string "boom")
  handler := fun _ e => e

/-! ## Sequencing lemmas -/

@[simp] theorem Eff.pure_eq {α : Type} (a : α) : (pure a : Eff α) = ⟨[], .ret a⟩ := rfl

@[simp] theorem Eff.bind_eq {α β : Type} (m : Eff α) (f : α → Eff β) : m >>= f = m.bind f := rfl

@[simp] theorem Eff.bind_ret {α β : Type} (t : List Event) (a : α) (f : α → Eff β) :
    Eff.bind ⟨t, .ret a⟩ f = ⟨t ++ (f a).trace, (f a).out⟩ := rfl

@[simp] theorem Eff.bind_halt {α β : Type} (t : List Event) (f : α → Eff β) :
    Eff.bind ⟨t, .halt⟩ f = ⟨t, .halt⟩ := rfl

@[simp] theorem Eff.bind_block {α β : Type} (t : List Event) (f : α → Eff β) :
    Eff.bind ⟨t, .block⟩ f = ⟨t, .block⟩ := rfl

@[simp] theorem Eff.bind_fault {α β : Type} (t : List Event) (f : α → Eff β) :
    Eff.bind ⟨t, .fault⟩ f = ⟨t, .fault⟩ := rfl

/-! ## `xedge_trace_callback`: proofs -/

theorem load_in_range (buf : List CChar) (n : Nat) (h : n < buf.length) :
    load buf (n : Int) = ⟨[.load n], .ret (buf.getD n 0)⟩ := by
  simp [load, h]

theorem store_in_range (buf : List CChar) (n : Nat) (v : CChar) (h : n < buf.length) :
    store buf (n : Int) v = ⟨[.store n v], .ret (buf.set n v)⟩ := by
  simp [store, h]

theorem readCStr_set_zero (buf : List CChar) (k : Nat) (h : k < buf.length) :
    readCStr (buf.set k 0) = ⟨[], .ret ((buf.set k 0).takeWhile (fun c => c ≠ 0))⟩ := by
  have hmem : (0 : CChar) ∈ buf.set k 0 := by
    rw [List.mem_iff_get]
    exact ⟨⟨k, by simpa using h⟩, by simp⟩
  simp [readCStr, hmem]

theorem takeWhile_set_zero (buf : List CChar) (k : Nat) (h : k < buf.length)
    (hz : ∀ c ∈ buf.take k, c ≠ 0) :
    (buf.set k 0).takeWhile (fun c => c ≠ 0) = buf.take k := by
  have hsplit : buf.set k 0 = buf.take k ++ (0 : CChar) :: buf.drop (k + 1) := by
    rw [List.set_eq_take_append_cons_drop]
    simp [h]
  rw [hsplit, List.takeWhile_append_of_pos]
  · simp
  · intro c hc
    simpa using hz c hc

/-- The run of the callback on a buffer whose last byte is a newline. -/
theorem trace_callback_newline (buf : List CChar) (n : Nat) (h : n < buf.length)
    (hnl : buf.getD n 0 = 10) :
    xedge_trace_callback buf ((n : Int) + 1) =
      ⟨[.load n, .store n 0, .LOG .inf "%s" [.cstr ((buf.set n 0).takeWhile (fun c => c ≠ 0))]],
        .ret (buf.set n 0)⟩ := by
  have hpos : (0 : Int) < (n : Int) + 1 := by omega
  simp only [xedge_trace_callback, gt_iff_lt, hpos, if_true, add_sub_cancel_right]
  rw [load_in_range buf n h]
  simp only [Eff.bind_eq, Eff.bind_ret, hnl, if_true]
  rw [store_in_range buf n 0 h]
  simp only [Eff.bind_ret]
  rw [readCStr_set_zero buf n h]
  simp [LOG_INF, emit]

/-- The run of the callback on a buffer whose last byte is not a newline and
that has room for one more byte. -/
theorem trace_callback_other (buf : List CChar) (n : Nat) (h : n + 1 < buf.length)
    (hnl : buf.getD n 0 ≠ 10) :
    xedge_trace_callback buf ((n : Int) + 1) =
      ⟨[.load n, .store ((n : Int) + 1) 0,
          .LOG .inf "%s" [.cstr ((buf.set (n + 1) 0).takeWhile (fun c => c ≠ 0))]],
        .ret (buf.set (n + 1) 0)⟩ := by
  have hpos : (0 : Int) < (n : Int) + 1 := by omega
  simp only [xedge_trace_callback, gt_iff_lt, hpos, if_true, add_sub_cancel_right]
  rw [load_in_range buf n (by omega)]
  simp only [Eff.bind_eq, Eff.bind_ret, hnl, if_false]
  have hs := store_in_range buf (n + 1) 0 h
  simp only [Nat.cast_add, Nat.cast_one] at hs
  rw [hs]
  simp only [Eff.bind_ret]
  rw [readCStr_set_zero buf (n + 1) h]
  simp [LOG_INF, emit]

/-- C5: for a buffer with capacity above `bufLen > 0`, the callback writes 0
at index `bufLen - 1` when `buf[bufLen - 1]` is a newline and at index `bufLen`
otherwise; that is the only write, the buffer keeps its size and every other
byte keeps its value. -/
theorem xedge_trace_callback_terminator (buf : List CChar) (bufLen : Int)
    (hpos : 0 < bufLen) (hcap : bufLen < buf.length) :
    ∃ buf', (xedge_trace_callback buf bufLen).out = .ret buf' ∧
      (xedge_trace_callback buf bufLen).trace.filter Event.isStore =
        [.store (if buf.getD (bufLen - 1).toNat 0 = 10 then bufLen - 1 else bufLen) 0] ∧
      buf'.length = buf.length ∧
      buf'[(if buf.getD (bufLen - 1).toNat 0 = 10 then bufLen - 1 else bufLen).toNat]? = some 0 ∧
      ∀ j : Nat, (j : Int) ≠ (if buf.getD (bufLen - 1).toNat 0 = 10 then bufLen - 1 else bufLen) →
        buf'[j]? = buf[j]? := by
  obtain ⟨n, rfl⟩ : ∃ n : Nat, bufLen = (n : Int) + 1 := ⟨(bufLen - 1).toNat, by omega⟩
  have hn : n + 1 < buf.length := by omega
  simp only [add_sub_cancel_right, Int.toNat_ofNat]
  by_cases hnl : buf.getD n 0 = 10
  · rw [trace_callback_newline buf n (by omega) hnl]
    simp only [hnl, if_true, Int.toNat_ofNat]
    refine ⟨buf.set n 0, rfl, ?_, by simp, ?_, ?_⟩
    · simp [Event.isStore]
    · rw [List.getElem?_set_self]
      omega
    · intro j hj
      rw [List.getElem?_set_ne]
      omega
  · rw [trace_callback_other buf n hn hnl]
    have ht : ((n : Int) + 1).toNat = n + 1 := by omega
    simp only [hnl, if_false, ht]
    refine ⟨buf.set (n + 1) 0, rfl, ?_, by simp, ?_, ?_⟩
    · simp [Event.isStore]
    · rw [List.getElem?_set_self]
      omega
    · intro j hj
      rw [List.getElem?_set_ne]
      omega

/-- C6: for `bufLen ≤ 0` the callback performs no effect at all (no log line,
no read and no write of the buffer) and returns with the buffer as it was. -/
theorem xedge_trace_callback_nonpositive (buf : List CChar) (bufLen : Int) (h : bufLen ≤ 0) :
    xedge_trace_callback buf bufLen = ⟨[], .ret buf⟩ := by
  have hn : ¬ bufLen > 0 := by omega
  simp [xedge_trace_callback, hn]

/-- C10: for `bufLen > 0` bytes without a 0 byte, in a buffer that has the
room for the terminator its caller guarantees (one more byte when the last of
them is not a newline), exactly one log line is emitted, at informational
severity, and its string is the first `bufLen` bytes without their last byte
when that byte is a newline, and the first `bufLen` bytes otherwise. -/
theorem xedge_trace_callback_logged_string (buf : List CChar) (bufLen : Int)
    (hpos : 0 < bufLen) (hlen : bufLen ≤ buf.length)
    (hz : ∀ c ∈ buf.take bufLen.toNat, c ≠ 0)
    (hcap : buf.getD (bufLen - 1).toNat 0 ≠ 10 → bufLen < buf.length) :
    (xedge_trace_callback buf bufLen).trace.filter Event.isLog =
      [.LOG .inf "%s" [.cstr (if buf.getD (bufLen - 1).toNat 0 = 10
        then (buf.take bufLen.toNat).dropLast else buf.take bufLen.toNat)]] := by
  obtain ⟨n, rfl⟩ : ∃ n : Nat, bufLen = (n : Int) + 1 := ⟨(bufLen - 1).toNat, by omega⟩
  have hn : n < buf.length := by omega
  have ht : ((n : Int) + 1).toNat = n + 1 := by omega
  simp only [add_sub_cancel_right, Int.toNat_ofNat, ht] at hz hcap ⊢
  by_cases hnl : buf.getD n 0 = 10
  · rw [trace_callback_newline buf n hn hnl]
    have hz' : ∀ c ∈ buf.take n, c ≠ 0 := fun c hc =>
      hz c (List.take_subset_take_left buf (Nat.le_succ n) hc)
    have hd : (buf.take (n + 1)).dropLast = buf.take n := by
      rw [List.dropLast_eq_take, List.length_take, List.take_take]
      congr 1
      omega
    have htw := takeWhile_set_zero buf n hn hz'
    simp only [ne_eq, decide_not] at htw
    simp only [hnl, if_true, hd]
    simp [Event.isLog, htw]
  · have hn1 : n + 1 < buf.length := by
      have := hcap hnl
      omega
    rw [trace_callback_other buf n hn1 hnl]
    have htw := takeWhile_set_zero buf (n + 1) hn1 hz
    simp only [ne_eq, decide_not] at htw
    simp only [hnl, if_false]
    simp [Event.isLog, htw]

/-- C8: the handler logs once at error severity on the structured log, then
once on the raw console, each call carrying `ecode1`, `ecode2`, `file` and
`line`, then calls `k_panic`; nothing else happens and the call does not
return. -/
theorem xedge_error_handler_halts (ecode1 : Int) (ecode2 : Nat) (file : String) (line : Int) :
    (xedge_error_handler ecode1 ecode2 file line).trace =
      [.LOG .err "Barracuda Fatal Error: %d %d at %s:%d"
          [.int ecode1, .uint ecode2, .str file, .int line],
        .printk "FATAL: Barracuda error %d %d at %s:%d\n"
          [.int ecode1, .uint ecode2, .str file, .int line],
        .k_panic] ∧
    (xedge_error_handler ecode1 ecode2 file line).out = .halt := by
  exact ⟨rfl, rfl⟩

/-- C9: the server thread calls `barracuda()` exactly once; when that call
returns, one error-severity log line follows and the thread function returns;
when it does not return, nothing follows it. -/
theorem xedge_server_thread_runs_once :
    (∀ r, (xedge_server_thread r).trace.count .barracuda = 1) ∧
    xedge_server_thread true =
      ⟨[.LOG .inf "Starting the Xedge main loop" [], .barracuda,
        .LOG .err "barracuda() returned unexpectedly!" []], .ret ()⟩ ∧
    xedge_server_thread false =
      ⟨[.LOG .inf "Starting the Xedge main loop" [], .barracuda], .block⟩ := by
  refine ⟨?_, rfl, rfl⟩
  intro r
  cases r <;> decide

/-- C5 at a buffer "ab\n" of capacity 4 and length 3. -/
theorem xedge_trace_callback_terminator_witness :
    (0 : Int) < 3 ∧ (3 : Int) < ([97, 98, 10, 120] : List CChar).length ∧
    ∃ buf', (xedge_trace_callback [97, 98, 10, 120] 3).out = .ret buf' ∧
      (xedge_trace_callback [97, 98, 10, 120] 3).trace.filter Event.isStore =
        [.store (if ([97, 98, 10, 120] : List CChar).getD ((3 : Int) - 1).toNat 0 = 10
          then (3 : Int) - 1 else 3) 0] ∧
      buf'.length = ([97, 98, 10, 120] : List CChar).length ∧
      buf'[(if ([97, 98, 10, 120] : List CChar).getD ((3 : Int) - 1).toNat 0 = 10
          then (3 : Int) - 1 else 3).toNat]? = some 0 ∧
      ∀ j : Nat, (j : Int) ≠ (if ([97, 98, 10, 120] : List CChar).getD ((3 : Int) - 1).toNat 0 = 10
          then (3 : Int) - 1 else 3) →
        buf'[j]? = ([97, 98, 10, 120] : List CChar)[j]? :=
  ⟨by decide, by decide, xedge_trace_callback_terminator [97, 98, 10, 120] 3 (by decide) (by decide)⟩

/-- C6 at length -1. -/
theorem xedge_trace_callback_nonpositive_witness :
    (-1 : Int) ≤ 0 ∧ xedge_trace_callback [97, 10] (-1) = ⟨[], .ret [97, 10]⟩ :=
  ⟨by decide, xedge_trace_callback_nonpositive [97, 10] (-1) (by decide)⟩

/-- C10 at "a\n\n" of length 3: one newline is left in the string. -/
theorem xedge_trace_callback_logged_string_witness :
    (xedge_trace_callback [97, 10, 10] 3).trace.filter Event.isLog =
      [.LOG .inf "%s" [.cstr (if ([97, 10, 10] : List CChar).getD ((3 : Int) - 1).toNat 0 = 10
        then (([97, 10, 10] : List CChar).take (3 : Int).toNat).dropLast
        else ([97, 10, 10] : List CChar).take (3 : Int).toNat)]] ∧
    (if ([97, 10, 10] : List CChar).getD ((3 : Int) - 1).toNat 0 = 10
        then (([97, 10, 10] : List CChar).take (3 : Int).toNat).dropLast
        else ([97, 10, 10] : List CChar).take (3 : Int).toNat) = [97, 10] :=
  ⟨xedge_trace_callback_logged_string [97, 10, 10] 3 (by decide) (by decide) (by simp)
    (by decide), by decide⟩

/-! ## `sntp_event`: proofs -/

theorem LuaStack.at_top (L : LuaStack) (v : LuaValue) : LuaStack.at (L ++ [v]) (-1) = some v := by
  simp [LuaStack.at]

/-- The protected call of a function below one argument on top of the stack. -/
theorem lua_pcall_one_arg (env : LuaEnv) (B : LuaStack) (f a : LuaValue) (nresults msgh : Int) :
    lua_pcall env (B ++ [f, a]) 1 nresults msgh =
      match env.call f [a] with
      | .ok rs => ⟨[.lua_pcall f [a] nresults msgh], .ret (B ++ adjustResults rs nresults, 0)⟩
      | .error e =>
        if msgh = 0 then ⟨[.lua_pcall f [a] nresults msgh], .ret (B ++ [e], 2)⟩
        else
          match LuaStack.at (B ++ [f, a]) msgh with
          | some h => ⟨[.lua_pcall f [a] nresults msgh, .msgh_called msgh e],
                        .ret (B ++ [env.handler h e], 2)⟩
          | none => ⟨[.lua_pcall f [a] nresults msgh], .fault⟩ := by
  have hlen : (B ++ [f, a]).length = B.length + 2 := by simp
  have h1 : (B ++ [f, a]).length - (1 + 1) = B.length := by omega
  have h2 : (B ++ [f, a]).length - 1 = B.length + 1 := by omega
  have h3 : 1 + 1 ≤ (B ++ [f, a]).length := by omega
  have hbase : List.take B.length (B ++ [f, a]) = B := List.take_left' rfl
  have hf : List.drop B.length (B ++ [f, a]) = [f, a] := List.drop_left' rfl
  have hargs : List.drop (B.length + 1) (B ++ [f, a]) = [a] := by
    have : B ++ [f, a] = (B ++ [f]) ++ [a] := by simp
    rw [this]
    exact List.drop_left' (by simp)
  simp only [lua_pcall, h3, if_true, h1, h2, hbase, hf, hargs, List.headD_cons]

/-- The run of `sntp_event` when the looked-up value is not a function. -/
theorem sntp_event_skip (env : LuaEnv) (L : LuaStack) (msgh : Int)
    (h : (env.index (.table env.globalTable) "_XedgeEvent").isFunction = false) :
    sntp_event env L msgh =
      ⟨[.lua_pushglobaltable, .lua_getfield (-1) "_XedgeEvent", .lua_isfunction (-1)],
        .ret (L ++ [.table env.globalTable, env.index (.table env.globalTable) "_XedgeEvent"])⟩ := by
  have ht := LuaStack.at_top L (.table env.globalTable)
  have hv := LuaStack.at_top (L ++ [.table env.globalTable])
    (env.index (.table env.globalTable) "_XedgeEvent")
  simp only [List.append_assoc, List.singleton_append] at hv
  simp [sntp_event, lua_pushglobaltable, lua_getfield, lua_isfunction, ht, hv, h]

/-- The run of `sntp_event` when the looked-up value is a function: four API
calls, then the protected call, whose status and results are dropped. -/
theorem sntp_event_call (env : LuaEnv) (L : LuaStack) (msgh : Int)
    (h : (env.index (.table env.globalTable) "_XedgeEvent").isFunction = true) :
    sntp_event env L msgh =
      ⟨[.lua_pushglobaltable, .lua_getfield (-1) "_XedgeEvent", .lua_isfunction (-1),
          .lua_pushstring "sntp"] ++
        ((lua_pcall env ((L ++ [.table env.globalTable]) ++
          [env.index (.table env.globalTable) "_XedgeEvent", .string "sntp"]) 1 0 msgh).bind
            fun r => pure r.1).trace,
        ((lua_pcall env ((L ++ [.table env.globalTable]) ++
          [env.index (.table env.globalTable) "_XedgeEvent", .string "sntp"]) 1 0 msgh).bind
            fun r => pure r.1).out⟩ := by
  have ht := LuaStack.at_top L (.table env.globalTable)
  have hv := LuaStack.at_top (L ++ [.table env.globalTable])
    (env.index (.table env.globalTable) "_XedgeEvent")
  simp only [List.append_assoc, List.singleton_append] at hv
  simp [sntp_event, lua_pushglobaltable, lua_getfield, lua_isfunction, lua_pushstring, ht, hv, h]

/-- C3, amended: when the global `_XedgeEvent` is a Lua function, `sntp_event`
makes exactly one protected call, of that function, with the one argument
"sntp", zero results requested and `msgh` as message handler index.  When the
call succeeds its results are dropped; when it fails the error value goes to
the message handler at `msgh` (with `msgh = 0` it stays on the stack as it
is) and `sntp_event` returns all the same. -/
theorem sntp_event_calls_function (env : LuaEnv) (L : LuaStack) (msgh : Int)
    (hf : (env.index (.table env.globalTable) "_XedgeEvent").isFunction = true) :
    (sntp_event env L msgh).trace.filter Event.isPcall =
      [.lua_pcall (env.index (.table env.globalTable) "_XedgeEvent") [.string "sntp"] 0 msgh] ∧
    (∀ rs, env.call (env.index (.table env.globalTable) "_XedgeEvent") [.string "sntp"] = .ok rs →
      (sntp_event env L msgh).out = .ret (L ++ [.table env.globalTable])) ∧
    (∀ e h, env.call (env.index (.table env.globalTable) "_XedgeEvent") [.string "sntp"] = .error e →
      msgh ≠ 0 →
      LuaStack.at (L ++ [.table env.globalTable,
        env.index (.table env.globalTable) "_XedgeEvent", .string "sntp"]) msgh = some h →
      (sntp_event env L msgh).trace.getLast? = some (.msgh_called msgh e) ∧
      (sntp_event env L msgh).out = .ret (L ++ [.table env.globalTable, env.handler h e])) ∧
    (∀ e, env.call (env.index (.table env.globalTable) "_XedgeEvent") [.string "sntp"] = .error e →
      msgh = 0 → (sntp_event env L msgh).out = .ret (L ++ [.table env.globalTable, e])) := by
  rw [sntp_event_call env L msgh hf, lua_pcall_one_arg]
  refine ⟨?_, ?_, ?_, ?_⟩
  · cases hc : env.call (env.index (.table env.globalTable) "_XedgeEvent") [.string "sntp"] with
    | ok rs => simp [Event.isPcall]
    | error e =>
      by_cases hm : msgh = 0
      · simp [hm, Event.isPcall]
      · simp only [hm, if_false]
        cases LuaStack.at (L ++ [.table env.globalTable] ++
            [env.index (.table env.globalTable) "_XedgeEvent", .string "sntp"]) msgh <;>
          simp [Event.isPcall]
  · intro rs hc
    simp [hc, adjustResults]
  · intro e h hc hm hat
    have hat' : LuaStack.at (L ++ [.table env.globalTable] ++
        [env.index (.table env.globalTable) "_XedgeEvent", .string "sntp"]) msgh = some h := by
      simpa using hat
    simp only [hc, hm, if_false, hat']
    simp
  · intro e hc hm
    simp [hc, hm]

/-- C4: when the lookup of `_XedgeEvent` yields nil, `sntp_event` performs the
lookup and the type test only (no `lua_pushstring`, no `lua_pcall`) and
returns. -/
theorem sntp_event_undefined (env : LuaEnv) (L : LuaStack) (msgh : Int)
    (hnil : env.index (.table env.globalTable) "_XedgeEvent" = .nil) :
    sntp_event env L msgh =
      ⟨[.lua_pushglobaltable, .lua_getfield (-1) "_XedgeEvent", .lua_isfunction (-1)],
        .ret (L ++ [.table env.globalTable, .nil])⟩ := by
  have h := sntp_event_skip env L msgh (by rw [hnil]; rfl)
  rw [hnil] at h
  exact h

/-! ## `main`: proofs -/

/-- The events of `main` before its first loop. -/
theorem main_startup_run (w : World) :
    main_startup w =
      ⟨[.LOG .inf "Xedge application starting..." [],
          .LOG .inf "Board: %s" [.str w.CONFIG_BOARD],
          .LOG .inf "Xedge stack size: %d bytes" [.int w.BA_STACKSZ]] ++
        (if w.USE_DLMALLOC then
          [.init_dlmalloc w.CONFIG_XEDGE_HEAP_SIZE,
            .dlmalloc_setExhaustedCB .dlmalloc_exhausted_handler,
            .LOG .inf "Xedge - dlmalloc initialized - heap size: %d bytes"
              [.uint w.CONFIG_XEDGE_HEAP_SIZE]]
          else []) ++
        [.HttpServer_setErrHnd .xedge_error_handler,
          .HttpTrace_setFLushCallback .xedge_trace_callback,
          .k_thread_create .xedge_server_thread w.K_THREAD_STACK_SIZEOF
            w.CONFIG_XEDGE_THREAD_PRIORITY 0],
        .ret ()⟩ := by
  cases h : w.USE_DLMALLOC <;> simp [main_startup, LOG_INF, emit, h]

theorem retry_body_failure (w : World) (i : Nat) (h : (w.sntp i).1 ≠ 0) :
    retry_body w i =
      ⟨[.sntp_simple "pool.ntp.org" 5000,
        .LOG .err "NTP sync failed: %d. Did you configure your network?" [.int (w.sntp i).1]],
        .ret false⟩ := by
  simp [retry_body, sntp_simple, LOG_ERR, emit, h]

theorem retry_body_success (w : World) (i : Nat) (h : (w.sntp i).1 = 0) :
    retry_body w i =
      ⟨[.sntp_simple "pool.ntp.org" 5000,
        .clock_settime .CLOCK_REALTIME ⟨time_t_of_uint64 (w.sntp i).2.seconds, 0⟩,
        .ThreadJob_lcreate w.sizeof_ThreadJob .sntp_event w.job,
        .HttpServer_getMutex w.mutex,
        .ThreadMutex_set w.mutex,
        .LThreadMgr_run w.job,
        .ThreadMutex_release w.mutex],
        .ret true⟩ := by
  simp [retry_body, sntp_simple, clock_settime, ThreadJob_lcreate, HttpServer_getMutex,
    ThreadMutex_set, LThreadMgr_run, ThreadMutex_release, emit, h]

theorem idle_body_run (w : World) (i : Nat) :
    idle_body w i =
      ⟨[.k_sleep 30, .k_uptime_get,
        .LOG .inf "Uptime: %lld seconds" [.int (Int.tdiv (w.uptime i) 1000)]], .ret ()⟩ := by
  simp [idle_body, k_sleep, k_uptime_get, LOG_INF, emit]

/-! ### Trace checks -/

theorem lockHeld_append (a b : List Event) :
    lockHeld (a ++ b) = b.foldl Event.lockAfter (lockHeld a) := by
  simp [lockHeld, List.foldl_append]

theorem ordered_append (a b : List Event) (h c : Bool) :
    ordered h c (a ++ b) =
      (ordered h c a && ordered (a.foldl Event.lockAfter h) (c || a.any Event.isClockSet) b) := by
  induction a generalizing h c with
  | nil => simp [ordered]
  | cons e es ih =>
    show ordered h c (e :: (es ++ b)) = _
    simp only [ordered, ih, List.foldl_cons, List.any_cons, Bool.and_assoc, Bool.or_assoc]

theorem ordered_split (p q : List Event) (e : Event) (h c : Bool)
    (ho : ordered h c (p ++ e :: q) = true) :
    (e.isEnqueue = true →
      p.foldl Event.lockAfter h = true ∧ (c || p.any Event.isClockSet) = true) ∧
    (e.isBlocking = true → p.foldl Event.lockAfter h = false) := by
  rw [ordered_append] at ho
  simp only [ordered, Bool.and_eq_true, Bool.or_eq_true, Bool.not_eq_true'] at ho
  obtain ⟨-, ⟨h1, h2⟩, -⟩ := ho
  constructor
  · intro he
    rcases h1 with h1 | h1
    · rw [he] at h1
      cases h1
    · simpa using h1
  · intro he
    rcases h2 with h2 | h2
    · rw [he] at h2
      cases h2
    · exact h2

theorem released_append (a b : List Event) (ha : released a = true) (hb : released b = true) :
    released (a ++ b) = true := by
  induction a with
  | nil => simpa using hb
  | cons e es ih =>
    cases e <;> simp_all [released]

theorem released_split (p q : List Event) (m : Nat)
    (h : released (p ++ .ThreadMutex_set m :: q) = true) : Event.ThreadMutex_release m ∈ q := by
  induction p with
  | nil => simp_all [released]
  | cons e es ih =>
    cases e <;> simp_all [released]

/-! ### Runs of `main` -/

theorem main_enter_run (w : World) : main_enter w = ⟨.retry, 0, 0, (main_startup w).trace⟩ := by
  simp [main_enter, main_startup_run]

theorem main_step_failure (w : World) (s : MainState) (hpc : s.pc = .retry)
    (h : (w.sntp s.queries).1 ≠ 0) :
    main_step w s = ⟨.retry, s.queries + 1, s.ticks, s.trace ++ (retry_body w s.queries).trace⟩ := by
  simp [main_step, hpc, retry_body_failure w s.queries h]

theorem main_step_success (w : World) (s : MainState) (hpc : s.pc = .retry)
    (h : (w.sntp s.queries).1 = 0) :
    main_step w s = ⟨.idle, s.queries + 1, s.ticks, s.trace ++ (retry_body w s.queries).trace⟩ := by
  simp [main_step, hpc, retry_body_success w s.queries h]

theorem main_step_idle (w : World) (s : MainState) (hpc : s.pc = .idle) :
    main_step w s = ⟨.idle, s.queries, s.ticks + 1, s.trace ++ (idle_body w s.ticks).trace⟩ := by
  simp [main_step, hpc, idle_body_run]

/-- While every time query fails, `main` stays in its retry loop. -/
theorem main_run_failures (w : World) (n : Nat) (hfail : ∀ i, i < n → (w.sntp i).1 ≠ 0) :
    main w n = ⟨.retry, n, 0, (main_startup w).trace ++ retryTrace w n⟩ := by
  induction n with
  | zero => simp [main, main_enter_run, retryTrace]
  | succ n ih =>
    have ih' := ih (fun i hi => hfail i (Nat.lt_succ_of_lt hi))
    have hn : (w.sntp (main w n).queries).1 ≠ 0 := by
      rw [ih']
      exact hfail n (Nat.lt_succ_self n)
    have hpc : (main w n).pc = .retry := by rw [ih']
    show main_step w (main w n) = _
    rw [main_step_failure w (main w n) hpc hn, ih']
    simp [retryTrace]

/-- After the first successful time query `main` is in its idle loop. -/
theorem main_run_success (w : World) (k m : Nat) (hfail : ∀ i, i < k → (w.sntp i).1 ≠ 0)
    (hok : (w.sntp k).1 = 0) :
    main w (k + 1 + m) =
      ⟨.idle, k + 1, m, (main_startup w).trace ++ retryTrace w (k + 1) ++ idleTrace w m⟩ := by
  induction m with
  | zero =>
    have hk := main_run_failures w k hfail
    have hpc : (main w k).pc = .retry := by rw [hk]
    have hq : (w.sntp (main w k).queries).1 = 0 := by
      rw [hk]
      exact hok
    show main_step w (main w k) = _
    rw [main_step_success w (main w k) hpc hq, hk]
    simp [retryTrace, idleTrace]
  | succ m ih =>
    have hpc : (main w (k + 1 + m)).pc = .idle := by rw [ih]
    show main_step w (main w (k + 1 + m)) = _
    rw [main_step_idle w _ hpc, ih]
    simp [idleTrace]

/-! ### What the parts of a run of `main` contain -/

theorem startup_quiet (w : World) (e : Event) (he : e ∈ (main_startup w).trace) :
    e.isQuery = false ∧ e.isSuccessEffect = false ∧ e.isErrLog = false ∧ e.isSleep = false := by
  have hall : ((main_startup w).trace.all fun e =>
      !e.isQuery && !e.isSuccessEffect && !e.isErrLog && !e.isSleep) = true := by
    rw [main_startup_run]
    cases w.USE_DLMALLOC <;> rfl
  have := List.all_eq_true.mp hall e he
  simpa [and_assoc] using this

theorem retryTrace_failures (w : World) (n : Nat) (hfail : ∀ i, i < n → (w.sntp i).1 ≠ 0) :
    (retryTrace w n).filter Event.isErrLog =
      (List.range n).map (fun i =>
        Event.LOG .err "NTP sync failed: %d. Did you configure your network?" [.int (w.sntp i).1]) ∧
    (retryTrace w n).filter Event.isQuery = List.replicate n (.sntp_simple "pool.ntp.org" 5000) ∧
    ∀ e ∈ retryTrace w n, e.isSuccessEffect = false ∧ e.isSleep = false := by
  induction n with
  | zero => simp [retryTrace]
  | succ n ih =>
    obtain ⟨h1, h2, h3⟩ := ih (fun i hi => hfail i (Nat.lt_succ_of_lt hi))
    have hb := retry_body_failure w n (hfail n (Nat.lt_succ_self n))
    refine ⟨?_, ?_, ?_⟩
    · simp [retryTrace, hb, h1, List.range_succ, Event.isErrLog]
    · simp [retryTrace, hb, h2, List.replicate_succ', Event.isQuery]
    · intro e he
      simp only [retryTrace, hb, List.mem_append, List.mem_cons, List.mem_singleton,
        List.not_mem_nil, or_false] at he
      rcases he with he | rfl | rfl
      · exact h3 e he
      · exact ⟨rfl, rfl⟩
      · exact ⟨rfl, rfl⟩

theorem idleTrace_quiet (w : World) (m : Nat) :
    ∀ e ∈ idleTrace w m, e.isQuery = false ∧ e.isSuccessEffect = false ∧ e.isErrLog = false := by
  induction m with
  | zero => simp [idleTrace]
  | succ m ih =>
    intro e he
    simp only [idleTrace, idle_body_run, List.mem_append, List.mem_cons, List.mem_singleton,
      List.not_mem_nil, or_false] at he
    rcases he with he | rfl | rfl | rfl
    · exact ih e he
    · exact ⟨rfl, rfl, rfl⟩
    · exact ⟨rfl, rfl, rfl⟩
    · exact ⟨rfl, rfl, rfl⟩

theorem isSuccessEffect_false (e : Event) (h : e.isSuccessEffect = false) :
    e.isClockSet = false ∧ e.isJobCreate = false ∧ e.isGetMutex = false ∧ e.isAcquire = false ∧
      e.isEnqueue = false ∧ e.isRelease = false := by
  simpa [Event.isSuccessEffect, and_assoc] using h

/-- C7: after `n` time queries that all failed, `main` has logged exactly the
`n` return codes, in order, at error severity; has issued `n` time queries; has
written no clock, created no job, acquired no lock, enqueued nothing and slept
never; and is in its retry loop, whose next pass starts with a time query. -/
theorem main_retries_while_failing (w : World) (n : Nat)
    (hfail : ∀ i, i < n → (w.sntp i).1 ≠ 0) :
    (main w n).pc = .retry ∧ (main w n).queries = n ∧
    (main w n).trace.filter Event.isErrLog =
      (List.range n).map (fun i =>
        Event.LOG .err "NTP sync failed: %d. Did you configure your network?" [.int (w.sntp i).1]) ∧
    (main w n).trace.filter Event.isQuery = List.replicate n (.sntp_simple "pool.ntp.org" 5000) ∧
    (∀ e ∈ (main w n).trace, e.isClockSet = false ∧ e.isJobCreate = false ∧
      e.isAcquire = false ∧ e.isEnqueue = false ∧ e.isSleep = false) ∧
    ∃ rest, (main w (n + 1)).trace =
      (main w n).trace ++ .sntp_simple "pool.ntp.org" 5000 :: rest := by
  have hrun := main_run_failures w n hfail
  obtain ⟨h1, h2, h3⟩ := retryTrace_failures w n hfail
  have hs := startup_quiet w
  refine ⟨by rw [hrun], by rw [hrun], ?_, ?_, ?_, ?_⟩
  · rw [hrun]
    simp only [List.filter_append, h1]
    rw [List.filter_eq_nil_iff.mpr (fun e he => by simp [(hs e he).2.2.1])]
    simp
  · rw [hrun]
    simp only [List.filter_append, h2]
    rw [List.filter_eq_nil_iff.mpr (fun e he => by simp [(hs e he).1])]
    simp
  · intro e he
    rw [hrun] at he
    simp only [List.mem_append] at he
    rcases he with he | he
    · obtain ⟨-, hq, -, hsl⟩ := hs e he
      obtain ⟨a, b, -, c, d, -⟩ := isSuccessEffect_false e hq
      exact ⟨a, b, c, d, hsl⟩
    · obtain ⟨hq, hsl⟩ := h3 e he
      obtain ⟨a, b, -, c, d, -⟩ := isSuccessEffect_false e hq
      exact ⟨a, b, c, d, hsl⟩
  · have hpc : (main w n).pc = .retry := by rw [hrun]
    show ∃ rest, (main_step w (main w n)).trace = _
    by_cases h0 : (w.sntp (main w n).queries).1 = 0
    · rw [main_step_success w _ hpc h0, retry_body_success w _ h0]
      exact ⟨_, rfl⟩
    · rw [main_step_failure w _ hpc h0, retry_body_failure w _ h0]
      exact ⟨_, rfl⟩

/-- C7 in a world where every query fails with -101, after 4 queries. -/
theorem main_retries_while_failing_witness :
    (main offlineWorld 4).pc = .retry ∧ (main offlineWorld 4).queries = 4 ∧
    (main offlineWorld 4).trace.filter Event.isErrLog =
      (List.range 4).map (fun i =>
        Event.LOG .err "NTP sync failed: %d. Did you configure your network?"
          [.int (offlineWorld.sntp i).1]) ∧
    (main offlineWorld 4).trace.filter Event.isQuery =
      List.replicate 4 (.sntp_simple "pool.ntp.org" 5000) ∧
    (∀ e ∈ (main offlineWorld 4).trace, e.isClockSet = false ∧ e.isJobCreate = false ∧
      e.isAcquire = false ∧ e.isEnqueue = false ∧ e.isSleep = false) ∧
    ∃ rest, (main offlineWorld (4 + 1)).trace =
      (main offlineWorld 4).trace ++ .sntp_simple "pool.ntp.org" 5000 :: rest :=
  main_retries_while_failing offlineWorld 4 (fun _ _ => by simp [offlineWorld])

/-- C1, amended: when the first `k` time queries fail and the next one succeeds
with `s < 2^63` seconds, every later state of `main` has written the clock
exactly once, to `{tv_sec = s, tv_nsec = 0}`; has created one job, with callback `sntp_event`,
and enqueued that job exactly once; has issued exactly `k + 1` time queries;
and is in the idle loop, whose passes add no time query, no clock write and no
enqueue. -/
theorem main_hands_off_once (w : World) (k m s : Nat)
    (hfail : ∀ i, i < k → (w.sntp i).1 ≠ 0) (hok : w.sntp k = (0, ⟨s⟩)) (hs : s < 2 ^ 63) :
    (main w (k + 1 + m)).trace.filter Event.isClockSet =
      [.clock_settime .CLOCK_REALTIME ⟨s, 0⟩] ∧
    (main w (k + 1 + m)).trace.filter Event.isJobCreate =
      [.ThreadJob_lcreate w.sizeof_ThreadJob .sntp_event w.job] ∧
    (main w (k + 1 + m)).trace.filter Event.isEnqueue = [.LThreadMgr_run w.job] ∧
    ((main w (k + 1 + m)).trace.filter Event.isQuery).length = k + 1 ∧
    (main w (k + 1 + m)).pc = .idle ∧
    (main w (k + 1 + m)).trace = (main w (k + 1)).trace ++ idleTrace w m ∧
    ∀ e ∈ idleTrace w m, e.isQuery = false ∧ e.isClockSet = false ∧ e.isEnqueue = false := by
  have hok1 : (w.sntp k).1 = 0 := by rw [hok]
  have hsec : time_t_of_uint64 (w.sntp k).2.seconds = (s : Int) := by
    rw [hok]
    have h64 : s % 2 ^ 64 = s := Nat.mod_eq_of_lt (by omega)
    simp only [time_t_of_uint64, h64, hs, if_true]
  have hrun := main_run_success w k m hfail hok1
  have hrun0 := main_run_success w k 0 hfail hok1
  obtain ⟨-, h2, h3⟩ := retryTrace_failures w k hfail
  have hs := startup_quiet w
  have hi := idleTrace_quiet w m
  have hb := retry_body_success w k hok1
  have hnil : ∀ (f : Event → Bool) (l : List Event), (∀ e ∈ l, f e = false) → l.filter f = [] :=
    fun f l hl => List.filter_eq_nil_iff.mpr (fun e he => by simp [hl e he])
  have hsplit : (main w (k + 1 + m)).trace =
      (main_startup w).trace ++ retryTrace w k ++ (retry_body w k).trace ++ idleTrace w m := by
    rw [hrun]
    simp [retryTrace]
  refine ⟨?_, ?_, ?_, ?_, by rw [hrun], ?_, ?_⟩
  · rw [hsplit]
    simp only [List.filter_append]
    rw [hnil _ _ (fun e he => (isSuccessEffect_false e (hs e he).2.1).1),
      hnil _ _ (fun e he => (isSuccessEffect_false e (h3 e he).1).1),
      hnil _ _ (fun e he => (isSuccessEffect_false e (hi e he).2.1).1), hb]
    simp [Event.isClockSet, hsec]
  · rw [hsplit]
    simp only [List.filter_append]
    rw [hnil _ _ (fun e he => (isSuccessEffect_false e (hs e he).2.1).2.1),
      hnil _ _ (fun e he => (isSuccessEffect_false e (h3 e he).1).2.1),
      hnil _ _ (fun e he => (isSuccessEffect_false e (hi e he).2.1).2.1), hb]
    simp [Event.isJobCreate]
  · rw [hsplit]
    simp only [List.filter_append]
    rw [hnil _ _ (fun e he => (isSuccessEffect_false e (hs e he).2.1).2.2.2.2.1),
      hnil _ _ (fun e he => (isSuccessEffect_false e (h3 e he).1).2.2.2.2.1),
      hnil _ _ (fun e he => (isSuccessEffect_false e (hi e he).2.1).2.2.2.2.1), hb]
    simp [Event.isEnqueue]
  · rw [hsplit]
    simp only [List.filter_append]
    rw [hnil _ _ (fun e he => (hs e he).1), h2, hnil _ _ (fun e he => (hi e he).1), hb]
    simp [Event.isQuery]
  · rw [hrun]
    have : main w (k + 1) = main w (k + 1 + 0) := rfl
    rw [this, hrun0]
    simp [idleTrace]
  · intro e he
    obtain ⟨hq, hse, -⟩ := hi e he
    obtain ⟨a, -, -, -, d, -⟩ := isSuccessEffect_false e hse
    exact ⟨hq, a, d⟩

/-- C1, amended, at three failures with code -1 followed by success with
1700000000 seconds, two idle passes later. -/
theorem main_hands_off_once_witness :
    (main threeFailuresWorld (3 + 1 + 2)).trace.filter Event.isClockSet =
      [.clock_settime .CLOCK_REALTIME ⟨1700000000, 0⟩] ∧
    (main threeFailuresWorld (3 + 1 + 2)).trace.filter Event.isJobCreate =
      [.ThreadJob_lcreate threeFailuresWorld.sizeof_ThreadJob .sntp_event threeFailuresWorld.job] ∧
    (main threeFailuresWorld (3 + 1 + 2)).trace.filter Event.isEnqueue =
      [.LThreadMgr_run threeFailuresWorld.job] ∧
    ((main threeFailuresWorld (3 + 1 + 2)).trace.filter Event.isQuery).length = 3 + 1 ∧
    (main threeFailuresWorld (3 + 1 + 2)).pc = .idle ∧
    (main threeFailuresWorld (3 + 1 + 2)).trace =
      (main threeFailuresWorld (3 + 1)).trace ++ idleTrace threeFailuresWorld 2 ∧
    ∀ e ∈ idleTrace threeFailuresWorld 2,
      e.isQuery = false ∧ e.isClockSet = false ∧ e.isEnqueue = false :=
  main_hands_off_once threeFailuresWorld 3 2 1700000000
    (fun i hi => by simp [threeFailuresWorld, hi]) (by simp [threeFailuresWorld])
    (by norm_num)

/-- C1 as stated fails at a first time query that succeeds with 2^63 seconds:
the premises hold with `k = 0`, and the one clock write is to
`tv_sec = -2^63`, not to `tv_sec = 2^63`. -/
theorem main_clock_wraps :
    (∀ i, i < 0 → (wrapWorld.sntp i).1 ≠ 0) ∧
    wrapWorld.sntp 0 = (0, ⟨9223372036854775808⟩) ∧
    (main wrapWorld (0 + 1 + 0)).trace.filter Event.isClockSet =
      [.clock_settime .CLOCK_REALTIME ⟨-9223372036854775808, 0⟩] ∧
    (main wrapWorld (0 + 1 + 0)).trace.filter Event.isClockSet ≠
      [.clock_settime .CLOCK_REALTIME ⟨9223372036854775808, 0⟩] := by
  have hrun : (main wrapWorld (0 + 1 + 0)).trace.filter Event.isClockSet =
      [.clock_settime .CLOCK_REALTIME ⟨-9223372036854775808, 0⟩] := by
    decide
  refine ⟨fun i hi => absurd hi (Nat.not_lt_zero i), rfl, hrun, ?_⟩
  rw [hrun]
  decide

/-! ### Ordering of the success branch -/

/-- The trace checks hold of a checked trace that ends without the lock,
extended by a block that passes them on its own. -/
theorem checks_append (t b : List Event)
    (ht : ordered false false t = true ∧ lockHeld t = false ∧ released t = true)
    (hb1 : ∀ c, ordered false c b = true) (hb2 : lockHeld b = false) (hb3 : released b = true) :
    ordered false false (t ++ b) = true ∧ lockHeld (t ++ b) = false ∧
      released (t ++ b) = true := by
  obtain ⟨ho, hl, hr⟩ := ht
  refine ⟨?_, ?_, released_append _ _ hr hb3⟩
  · have hl' : List.foldl Event.lockAfter false t = false := hl
    rw [ordered_append, ho, hl', hb1]
    rfl
  · rw [lockHeld_append, hl]
    exact hb2

/-- What holds of the trace of `main` between any two loop passes. -/
theorem main_invariant (w : World) (n : Nat) :
    (ordered false false (main w n).trace = true ∧ lockHeld (main w n).trace = false ∧
      released (main w n).trace = true) ∧
    (((main w n).pc = .retry ∧ (main w n).trace.filter Event.isSuccessEffect = []) ∨
      ((main w n).pc = .idle ∧ ∃ ts, (main w n).trace.filter Event.isSuccessEffect =
        [.clock_settime .CLOCK_REALTIME ts,
          .ThreadJob_lcreate w.sizeof_ThreadJob .sntp_event w.job,
          .HttpServer_getMutex w.mutex, .ThreadMutex_set w.mutex, .LThreadMgr_run w.job,
          .ThreadMutex_release w.mutex])) := by
  induction n with
  | zero =>
    have hs := startup_quiet w
    have hall : (ordered false false (main_startup w).trace && !lockHeld (main_startup w).trace
        && released (main_startup w).trace) = true := by
      rw [main_startup_run]
      cases w.USE_DLMALLOC <;> rfl
    simp only [Bool.and_eq_true, Bool.not_eq_true', Bool.not_eq_eq_eq_not, Bool.not_true] at hall
    have h0 : main w 0 = ⟨.retry, 0, 0, (main_startup w).trace⟩ := main_enter_run w
    rw [h0]
    refine ⟨⟨hall.1.1, hall.1.2, hall.2⟩, Or.inl ⟨rfl, ?_⟩⟩
    exact List.filter_eq_nil_iff.mpr (fun e he => by simp [(hs e he).2.1])
  | succ n ih =>
    obtain ⟨hchk, hpc⟩ := ih
    have hmain : main w (n + 1) = main_step w (main w n) := rfl
    rcases hpc with ⟨hpc, hf⟩ | ⟨hpc, ts, hf⟩
    · by_cases h0 : (w.sntp (main w n).queries).1 = 0
      · have hstep := main_step_success w _ hpc h0
        rw [retry_body_success w (main w n).queries h0] at hstep
        rw [hmain, hstep]
        dsimp only
        refine ⟨checks_append _ _ hchk (fun c => by cases c <;> rfl) rfl (by simp [released]),
          Or.inr ⟨rfl, ⟨time_t_of_uint64 (w.sntp (main w n).queries).2.seconds, 0⟩, ?_⟩⟩
        simp only [List.filter_append, hf, List.nil_append]
        rfl
      · have hstep := main_step_failure w _ hpc h0
        rw [retry_body_failure w (main w n).queries h0] at hstep
        rw [hmain, hstep]
        dsimp only
        refine ⟨checks_append _ _ hchk (fun c => by cases c <;> rfl) rfl (by simp [released]),
          Or.inl ⟨rfl, ?_⟩⟩
        simp only [List.filter_append, hf, List.nil_append]
        rfl
    · have hstep := main_step_idle w _ hpc
      rw [idle_body_run] at hstep
      rw [hmain, hstep]
      dsimp only
      refine ⟨checks_append _ _ hchk (fun c => by cases c <;> rfl) rfl (by simp [released]),
        Or.inr ⟨rfl, ts, ?_⟩⟩
      simp only [List.filter_append, hf]
      rfl

/-- C2: between any two loop passes of `main`, either no effect of the success
branch has happened and `main` is in the retry loop, or `main` is in the idle
loop and these effects are, in order: `clock_settime`, `ThreadJob_lcreate`,
`HttpServer_getMutex`, `ThreadMutex_set`, `LThreadMgr_run`,
`ThreadMutex_release`, the lock being the one `HttpServer_getMutex` returned
and the job the one `ThreadJob_lcreate` returned.  (a, b) Before every enqueue
the clock has been written, and the lock is held.  (c) Every acquire is
followed by a release of the same lock, and no lock is held between passes.
(d) No lock is held when a time query or a delay starts. -/
theorem main_success_branch_order (w : World) (n : Nat) :
    (((main w n).pc = .retry ∧ (main w n).trace.filter Event.isSuccessEffect = []) ∨
      ((main w n).pc = .idle ∧ ∃ ts, (main w n).trace.filter Event.isSuccessEffect =
        [.clock_settime .CLOCK_REALTIME ts,
          .ThreadJob_lcreate w.sizeof_ThreadJob .sntp_event w.job,
          .HttpServer_getMutex w.mutex, .ThreadMutex_set w.mutex, .LThreadMgr_run w.job,
          .ThreadMutex_release w.mutex])) ∧
    (∀ p q j, (main w n).trace = p ++ .LThreadMgr_run j :: q →
      (∃ ts, Event.clock_settime .CLOCK_REALTIME ts ∈ p) ∧ lockHeld p = true) ∧
    (∀ p q m, (main w n).trace = p ++ .ThreadMutex_set m :: q →
      Event.ThreadMutex_release m ∈ q) ∧
    lockHeld (main w n).trace = false ∧
    (∀ p e q, (main w n).trace = p ++ e :: q → e.isBlocking = true → lockHeld p = false) := by
  obtain ⟨⟨ho, hl, hr⟩, hseq⟩ := main_invariant w n
  refine ⟨hseq, ?_, ?_, hl, ?_⟩
  · intro p q j hsplit
    rw [hsplit] at ho
    obtain ⟨hheld, hclk⟩ := (ordered_split p q _ false false ho).1 rfl
    refine ⟨?_, hheld⟩
    simp only [Bool.false_or, List.any_eq_true] at hclk
    obtain ⟨e, he, hce⟩ := hclk
    cases e <;> simp [Event.isClockSet] at hce
    rename_i clock ts
    cases clock
    exact ⟨ts, he⟩
  · intro p q m hsplit
    rw [hsplit] at hr
    exact released_split p q m hr
  · intro p e q hsplit hblock
    rw [hsplit] at ho
    exact (ordered_split p q e false false ho).2 hblock

/-! ## Runs of `sntp_event` in concrete scripting environments -/

/-- C3 as stated fails where `_XedgeEvent` is a table with a `__call`
metamethod: the value is defined and callable, and `sntp_event` makes no
call, since `lua_isfunction` holds of functions only. -/
theorem sntp_event_skips_callable_table :
    callableTableEnv.index (.table callableTableEnv.globalTable) "_XedgeEvent" ≠ .nil ∧
    callableTableEnv.callable
      (callableTableEnv.index (.table callableTableEnv.globalTable) "_XedgeEvent") = true ∧
    (sntp_event callableTableEnv [] 0).trace.filter Event.isPcall = [] ∧
    sntp_event callableTableEnv [] 0 =
      ⟨[.lua_pushglobaltable, .lua_getfield (-1) "_XedgeEvent", .lua_isfunction (-1)],
        .ret [.table 0, .table 1]⟩ := by
  refine ⟨by decide, by decide, ?_, ?_⟩ <;>
    rw [sntp_event_skip callableTableEnv [] 0 rfl] <;> rfl

/-- C3, amended, where `_XedgeEvent` is function 5 and its call fails: one
protected call, and the error value reaches the handler at index 1. -/
theorem sntp_event_calls_function_witness :
    (sntp_event failingEnv [.function 1] 1).trace.filter Event.isPcall =
      [.lua_pcall (failingEnv.index (.table failingEnv.globalTable) "_XedgeEvent")
        [.string "sntp"] 0 1] ∧
    (∀ rs, failingEnv.call (failingEnv.index (.table failingEnv.globalTable) "_XedgeEvent")
        [.string "sntp"] = .ok rs →
      (sntp_event failingEnv [.function 1] 1).out =
        .ret ([.function 1] ++ [.table failingEnv.globalTable])) ∧
    (∀ e h, failingEnv.call (failingEnv.index (.table failingEnv.globalTable) "_XedgeEvent")
        [.string "sntp"] = .error e →
      (1 : Int) ≠ 0 →
      LuaStack.at ([.function 1] ++ [.table failingEnv.globalTable,
        failingEnv.index (.table failingEnv.globalTable) "_XedgeEvent", .string "sntp"]) 1 =
          some h →
      (sntp_event failingEnv [.function 1] 1).trace.getLast? = some (.msgh_called 1 e) ∧
      (sntp_event failingEnv [.function 1] 1).out =
        .ret ([.function 1] ++ [.table failingEnv.globalTable, failingEnv.handler h e])) ∧
    (∀ e, failingEnv.call (failingEnv.index (.table failingEnv.globalTable) "_XedgeEvent")
        [.string "sntp"] = .error e →
      (1 : Int) = 0 →
      (sntp_event failingEnv [.function 1] 1).out =
        .ret ([.function 1] ++ [.table failingEnv.globalTable, e])) :=
  sntp_event_calls_function failingEnv [.function 1] 1 rfl

/-- C4 in the environment where every lookup yields nil. -/
theorem sntp_event_undefined_witness :
    sntp_event emptyEnv [.function 1] 1 =
      ⟨[.lua_pushglobaltable, .lua_getfield (-1) "_XedgeEvent", .lua_isfunction (-1)],
        .ret ([.function 1] ++ [.table emptyEnv.globalTable, .nil])⟩ :=
  sntp_event_undefined emptyEnv [.function 1] 1 rfl

end Xedge
